import Mathlib

/-!
Verification of the itinerary-to-calendar converter of the TravelAI
repository (`src/app.py`, function `generate_ics_content`, lines 16-47).

The converter scans a free-form itinerary string with the Python regex

  day_pattern = re.compile(r'Day (\d+)[:\s]+(.*?)(?=Day \d+|$)', re.DOTALL)
  days = day_pattern.findall(plan_text)

and either builds one all-day calendar event per match, dated
start_date + (day_number - 1) days, or falls back to a single event holding
the whole text when no match is found.

Shallow embedding conventions:
* Strings are handled as `List Char`; Python character classes `\d` and `\s`
  are modelled by their ASCII parts (the itinerary text produced and consumed
  by the program is ASCII).
* `datetime`/`date` values are modelled by their proleptic-Gregorian day
  ordinal as an `Int` (Python `date.toordinal()`).  Python restricts dates to
  years 1..9999, i.e. ordinals 1..3652059; `start_date + timedelta(days=k)`
  raises `OverflowError` when the result leaves that range, which the
  embedding models by returning `none`.
* `datetime.now()` is called once per event for the `dtstamp` field and
  `datetime.today()` once when `start_date` is `None`; those clock reads are
  modelled by an explicit `clock : Nat → Int` argument (the value of the
  i-th `now()` call) and a `today : Int` argument.
-/

namespace TravelAI

/-- ASCII decimal digit: the ASCII part of Python regex class `\d`. -/
def isDigitChar (c : Char) : Bool := '0' ≤ c && c ≤ '9'

/-- ASCII whitespace: the ASCII part of Python regex class `\s`
(space, tab, newline, vertical tab, form feed, carriage return);
also the character set stripped by Python `str.strip()`. -/
def isSpaceChar (c : Char) : Bool :=
  c = ' ' || c = '\t' || c = '\n' || c = '\r' || c.toNat = 11 || c.toNat = 12

/-- A character matched by the regex class `[:\s]`. -/
def isSepChar (c : Char) : Bool := c = ':' || isSpaceChar c

/-- Numeric value of a digit string, as computed by Python `int(...)`
on a string of decimal digits. -/
def digitsVal (ds : List Char) : Nat :=
  ds.foldl (fun a c => 10 * a + (c.toNat - 48)) 0

/-- The first alternative of the lookahead `(?=Day \d+|$)`: the remaining
input starts with the literal `Day ` followed by at least one digit. -/
def lookaheadDay : List Char → Bool
  | 'D' :: 'a' :: 'y' :: ' ' :: c :: _ => isDigitChar c
  | _ => false

/-- The second alternative of the lookahead, Python `$` without
`re.MULTILINE`: it matches at the end of the string and also just before a
newline that ends the string. -/
def lookaheadEnd : List Char → Bool
  | [] => true
  | ['\n'] => true
  | _ => false

/-- The zero-width lookahead `(?=Day \d+|$)` of `day_pattern`. -/
def regexStop (l : List Char) : Bool := lookaheadDay l || lookaheadEnd l

/-- The lazy group `(.*?)(?=Day \d+|$)` under `re.DOTALL`: split the
remaining input at the earliest position where the lookahead holds,
returning (captured content, rest).  The lookahead always holds at the end
of the input, so the split always exists. -/
def lazyContent : List Char → List Char × List Char
  | [] => ([], [])
  | c :: t =>
    if regexStop (c :: t) then ([], c :: t)
    else (c :: (lazyContent t).1, (lazyContent t).2)

/-- One attempted match of `day_pattern` anchored at the start of `l`:
literal `Day `, then the greedy `(\d+)` (maximal digit run, nonempty), then
the greedy `[:\s]+` (maximal separator run, nonempty), then the lazy
content group.  Returns `(day number, content group, rest after the match)`.
Backtracking cannot help here: `\d` and `[:\s]` are disjoint so shrinking
the digit run never lets `[:\s]+` start, and the content group always
succeeds because `$` holds at the end of input. -/
def matchDayAt : List Char → Option (Nat × List Char × List Char)
  | 'D' :: 'a' :: 'y' :: ' ' :: r =>
    let ds := r.takeWhile isDigitChar
    let r1 := r.dropWhile isDigitChar
    if ds.isEmpty then none
    else
      let sep := r1.takeWhile isSepChar
      let r2 := r1.dropWhile isSepChar
      if sep.isEmpty then none
      else
        let p := lazyContent r2
        some (digitsVal ds, p.1, p.2)
  | _ => none

/-- `re.findall` scan: try a match at each position left to right; on a
match, record the two groups and resume at the end of the match (every
match here consumes at least the five characters `Day n` + separator, so no
empty-match adjustment is needed).  Structural recursion on a fuel that is
at least the input length; `findallFuel_congr` below shows any sufficient
fuel gives the same result. -/
def findallFuel : Nat → List Char → List (Nat × List Char)
  | 0, _ => []
  | _, [] => []
  | fuel + 1, c :: t =>
    match matchDayAt (c :: t) with
    | some (n, content, rest) => (n, content) :: findallFuel fuel rest
    | none => findallFuel fuel t

/-- `day_pattern.findall(plan_text)`, as the list of (int(group 1), group 2)
pairs in match order. -/
def findall (l : List Char) : List (Nat × List Char) := findallFuel l.length l

/-- Python `str.strip()` restricted to ASCII whitespace: drop leading and
trailing whitespace characters, leaving the interior untouched. -/
def pyStrip (l : List Char) : List Char :=
  ((l.dropWhile isSpaceChar).reverse.dropWhile isSpaceChar).reverse

/-- One VEVENT as assembled by `generate_ics_content`; dates are day
ordinals, `dtstamp` is the `datetime.now()` reading taken for this event. -/
structure CalendarEvent where
  summary : String
  description : String
  dtstart : Int
  dtend : Int
  dtstamp : Int
  deriving Repr, DecidableEq

/-- The `icalendar.Calendar` document before serialization: the two
document-level properties added at lines 18-19 of `src/app.py`, plus the
ordered list of events added by `cal.add_component`. -/
structure Calendar where
  prodid : String
  version : String
  events : List CalendarEvent
  deriving Repr, DecidableEq

/-- Python `date` ordinals run from 1 (`0001-01-01`) to 3652059
(`9999-12-31`); `datetime + timedelta` raises `OverflowError` outside. -/
def minOrdinal : Int := 1

/-- Upper bound of the Python `date` ordinal range (`9999-12-31`). -/
def maxOrdinal : Int := 3652059

/-- The for-loop of lines 36-45: one event per `(day_num, day_content)`
pair, with `current_date = start_date + timedelta(days=day_num - 1)`.
`i` is the index of the next `datetime.now()` call.  A date outside the
representable range raises `OverflowError`, modelled as `none`. -/
def buildDayEvents (start : Int) (clock : Nat → Int) :
    Nat → List (Nat × List Char) → Option (List CalendarEvent)
  | _, [] => some []
  | i, (n, content) :: rest =>
    let d : Int := start + (n : Int) - 1
    if minOrdinal ≤ d ∧ d ≤ maxOrdinal then
      match buildDayEvents start clock (i + 1) rest with
      | some evs =>
        some ({ summary := "Day " ++ toString n ++ " Itinerary",
                description := String.mk (pyStrip content),
                dtstart := d, dtend := d, dtstamp := clock i } :: evs)
      | none => none
    else none

/-- `generate_ics_content(plan_text, start_date)` of `src/app.py`
lines 16-47.  `startOpt = none` models the `start_date=None` default, in
which case `datetime.today()` (the `today` argument) is used.  The result
is `none` exactly when the Python call raises (date overflow). -/
def generate_ics_content (plan : String) (startOpt : Option Int)
    (today : Int) (clock : Nat → Int) : Option Calendar :=
  let start := startOpt.getD today
  let days := findall plan.data
  match days with
  | [] =>
    some { prodid := "-//AI Travel Planner//github.com//", version := "2.0",
           events := [{ summary := "Travel Itinerary", description := plan,
                        dtstart := start, dtend := start, dtstamp := clock 0 }] }
  | _ :: _ =>
    match buildDayEvents start clock 0 days with
    | some evs =>
      some { prodid := "-//AI Travel Planner//github.com//", version := "2.0",
             events := evs }
    | none => none

/-- Spec-side definition for the refinement claim about the day-marker
parser, following the spec's words: a marker is the case-sensitive literal
`Day ` followed by at least one digit followed by a colon or whitespace.
This predicate holds when the remaining input starts with such a (complete)
marker. -/
def claimedMarkerAt : List Char → Bool
  | 'D' :: 'a' :: 'y' :: ' ' :: r =>
    !(r.takeWhile isDigitChar).isEmpty &&
      (match r.dropWhile isDigitChar with
       | c :: _ => isSepChar c
       | [] => false)
  | _ => false

/-- Spec-side stop condition: a day's content runs "up to the next marker
(or end of text)". -/
def claimedStop (l : List Char) : Bool := claimedMarkerAt l || l.isEmpty

/-- Spec-side content extraction: everything up to the earliest complete
marker or the end of the text. -/
def claimedContent : List Char → List Char × List Char
  | [] => ([], [])
  | c :: t =>
    if claimedStop (c :: t) then ([], c :: t)
    else (c :: (claimedContent t).1, (claimedContent t).2)

/-- Spec-side single match: identical to `matchDayAt` except that the
content group stops only at a complete marker (or true end of text), per
the claim's "takes everything after the marker up to the next marker". -/
def claimedMatchDayAt : List Char → Option (Nat × List Char × List Char)
  | 'D' :: 'a' :: 'y' :: ' ' :: r =>
    let ds := r.takeWhile isDigitChar
    let r1 := r.dropWhile isDigitChar
    if ds.isEmpty then none
    else
      let sep := r1.takeWhile isSepChar
      let r2 := r1.dropWhile isSepChar
      if sep.isEmpty then none
      else
        let p := claimedContent r2
        some (digitsVal ds, p.1, p.2)
  | _ => none

/-- Spec-side scan, mirroring the `findall` scan over the spec-side
matcher. -/
def claimedFindallFuel : Nat → List Char → List (Nat × List Char)
  | 0, _ => []
  | _, [] => []
  | fuel + 1, c :: t =>
    match claimedMatchDayAt (c :: t) with
    | some (n, content, rest) => (n, content) :: claimedFindallFuel fuel rest
    | none => claimedFindallFuel fuel t

/-- Spec-side parser: the (dayNumber, dayContent) sequence as the claim
describes it. -/
def claimedFindall (l : List Char) : List (Nat × List Char) :=
  claimedFindallFuel l.length l

/-- Where the code's content group actually stops, stated in the words of
the amended claim: at `Day ` followed by a digit (whether or not a colon or
whitespace follows, i.e. even at an incomplete marker), at the end of the
text, or just before a newline that ends the text. -/
def StopSpec (l : List Char) : Prop :=
  (∃ d r, l = 'D' :: 'a' :: 'y' :: ' ' :: d :: r ∧ isDigitChar d = true) ∨
    l = [] ∨ l = ['\n']

/-- The event built for the pair at index `i` of the findall result (the
body of the loop at lines 36-45 of `src/app.py`). -/
def eventOfPair (start : Int) (clock : Nat → Int) (i : Nat)
    (p : Nat × List Char) : CalendarEvent :=
  { summary := "Day " ++ toString p.1 ++ " Itinerary",
    description := String.mk (pyStrip p.2),
    dtstart := start + (p.1 : Int) - 1,
    dtend := start + (p.1 : Int) - 1,
    dtstamp := clock i }

/-- Every field of an event except the wall-clock `dtstamp`. -/
def eraseStamp (e : CalendarEvent) : String × String × Int × Int :=
  (e.summary, e.description, e.dtstart, e.dtend)

/-! ### Basic facts about the lazy content group -/

theorem lazyContent_append (l : List Char) :
    (lazyContent l).1 ++ (lazyContent l).2 = l := by
  induction l with
  | nil => rfl
  | cons c t ih =>
    by_cases h : regexStop (c :: t) = true
    · simp [lazyContent, h]
    · simp only [Bool.not_eq_true] at h
      simp [lazyContent, h, ih]

theorem lazyContent_stop (l : List Char) : regexStop (lazyContent l).2 = true := by
  induction l with
  | nil => rfl
  | cons c t ih =>
    by_cases h : regexStop (c :: t) = true
    · simp [lazyContent, h]
    · simp only [Bool.not_eq_true] at h
      simpa [lazyContent, h] using ih

theorem lazyContent_earliest (l : List Char) :
    ∀ k, k < (lazyContent l).1.length → regexStop (l.drop k) = false := by
  induction l with
  | nil => intro k hk; simp [lazyContent] at hk
  | cons c t ih =>
    intro k hk
    by_cases h : regexStop (c :: t) = true
    · simp [lazyContent, h] at hk
    · simp only [Bool.not_eq_true] at h
      match k with
      | 0 => simpa using h
      | k + 1 =>
        simp only [lazyContent, h, if_neg] at hk
        simp only [List.drop_succ_cons]
        exact ih k (by simpa using Nat.lt_of_succ_lt_succ (by simpa using hk))

theorem lazyContent_snd_le (l : List Char) : (lazyContent l).2.length ≤ l.length := by
  have h := congrArg List.length (lazyContent_append l)
  simp only [List.length_append] at h
  omega

theorem dropWhile_length_le (p : Char → Bool) (l : List Char) :
    (l.dropWhile p).length ≤ l.length := by
  have h := congrArg List.length (List.takeWhile_append_dropWhile p l)
  simp only [List.length_append] at h
  omega

/-! ### Shape of a successful match -/

theorem matchDayAt_eq_some {l : List Char} {n : Nat} {content rest : List Char}
    (h : matchDayAt l = some (n, content, rest)) :
    ∃ r, l = 'D' :: 'a' :: 'y' :: ' ' :: r ∧
      (r.takeWhile isDigitChar).isEmpty = false ∧
      ((r.dropWhile isDigitChar).takeWhile isSepChar).isEmpty = false ∧
      n = digitsVal (r.takeWhile isDigitChar) ∧
      content = (lazyContent ((r.dropWhile isDigitChar).dropWhile isSepChar)).1 ∧
      rest = (lazyContent ((r.dropWhile isDigitChar).dropWhile isSepChar)).2 := by
  unfold matchDayAt at h
  split at h
  · next r =>
    simp only at h
    split at h
    · exact absurd h (by simp)
    · split at h
      · exact absurd h (by simp)
      · next h1 h2 =>
        simp only [Option.some.injEq, Prod.mk.injEq] at h
        exact ⟨r, rfl, by simpa using h1, by simpa using h2,
          h.1.symm, h.2.1.symm, h.2.2.symm⟩
  · exact absurd h (by simp)

theorem matchDayAt_rest_length {l : List Char} {n : Nat} {content rest : List Char}
    (h : matchDayAt l = some (n, content, rest)) : rest.length < l.length := by
  obtain ⟨r, rfl, -, -, -, -, h5⟩ := matchDayAt_eq_some h
  have e1 := lazyContent_snd_le ((r.dropWhile isDigitChar).dropWhile isSepChar)
  have e2 := dropWhile_length_le isSepChar (r.dropWhile isDigitChar)
  have e3 := dropWhile_length_le isDigitChar r
  subst h5
  simp only [List.length_cons]
  omega

/-! ### The findall scan: fuel irrelevance and unfolding -/

theorem findallFuel_congr :
    ∀ (f₁ f₂ : Nat) (l : List Char), l.length ≤ f₁ → l.length ≤ f₂ →
      findallFuel f₁ l = findallFuel f₂ l := by
  intro f₁
  induction f₁ with
  | zero =>
    intro f₂ l h₁ h₂
    have : l = [] := List.length_eq_zero.mp (Nat.le_zero.mp h₁)
    subst this
    cases f₂ <;> rfl
  | succ a ih =>
    intro f₂ l h₁ h₂
    cases l with
    | nil => cases f₂ <;> rfl
    | cons c t =>
      cases f₂ with
      | zero => exact absurd h₂ (by simp)
      | succ b =>
        cases hm : matchDayAt (c :: t) with
        | none =>
          simp only [findallFuel, hm]
          exact ih b t (by simpa using Nat.le_of_succ_le_succ h₁)
            (by simpa using Nat.le_of_succ_le_succ h₂)
        | some v =>
          obtain ⟨n, content, rest⟩ := v
          have hr := matchDayAt_rest_length hm
          simp only [List.length_cons] at hr h₁ h₂
          simp only [findallFuel, hm]
          exact congrArg _ (ih b rest (by omega) (by omega))

theorem findall_cons_none {c : Char} {t : List Char}
    (h : matchDayAt (c :: t) = none) : findall (c :: t) = findall t := by
  unfold findall
  simp only [List.length_cons, findallFuel, h]

theorem findall_cons_some {c : Char} {t : List Char} {n : Nat}
    {content rest : List Char}
    (h : matchDayAt (c :: t) = some (n, content, rest)) :
    findall (c :: t) = (n, content) :: findall rest := by
  unfold findall
  simp only [List.length_cons, findallFuel, h]
  have hr := matchDayAt_rest_length h
  simp only [List.length_cons] at hr
  exact congrArg _ (findallFuel_congr t.length rest.length rest (by omega) (Nat.le_refl _))

/-! ### The lookahead, stated as a proposition -/

theorem lookaheadDay_iff {l : List Char} :
    lookaheadDay l = true ↔
      ∃ d r, l = 'D' :: 'a' :: 'y' :: ' ' :: d :: r ∧ isDigitChar d = true := by
  constructor
  · intro h
    unfold lookaheadDay at h
    split at h
    · next d r => exact ⟨d, r, rfl, h⟩
    · simp at h
  · rintro ⟨d, r, rfl, hd⟩
    simpa [lookaheadDay] using hd

theorem lookaheadEnd_iff {l : List Char} :
    lookaheadEnd l = true ↔ l = [] ∨ l = ['\n'] := by
  constructor
  · intro h
    unfold lookaheadEnd at h
    split at h
    · exact Or.inl rfl
    · exact Or.inr rfl
    · simp at h
  · rintro (rfl | rfl) <;> rfl

theorem stopSpec_iff {l : List Char} : StopSpec l ↔ regexStop l = true := by
  unfold StopSpec regexStop
  rw [Bool.or_eq_true, lookaheadDay_iff, lookaheadEnd_iff]

/-! ### Facts about pyStrip -/

theorem pyStrip_decomposition (l : List Char) :
    ∃ pre suf, pre.all isSpaceChar = true ∧ suf.all isSpaceChar = true ∧
      l = pre ++ pyStrip l ++ suf := by
  refine ⟨l.takeWhile isSpaceChar,
    ((l.dropWhile isSpaceChar).reverse.takeWhile isSpaceChar).reverse, ?_, ?_, ?_⟩
  · simp only [List.all_eq_true]
    exact fun x hx => List.mem_takeWhile_imp hx
  · simp only [List.all_eq_true, List.mem_reverse]
    exact fun x hx => List.mem_takeWhile_imp hx
  · unfold pyStrip
    conv_lhs => rw [← List.takeWhile_append_dropWhile isSpaceChar l]
    rw [List.append_assoc]
    congr 1
    conv_lhs => rw [← (l.dropWhile isSpaceChar).reverse_reverse,
      ← List.takeWhile_append_dropWhile isSpaceChar (l.dropWhile isSpaceChar).reverse]
    rw [List.reverse_append]

theorem pyStrip_of_all_space {l : List Char} (h : l.all isSpaceChar = true) :
    pyStrip l = [] := by
  unfold pyStrip
  have h1 : l.dropWhile isSpaceChar = [] := by
    rw [List.dropWhile_eq_nil_iff]
    simpa [List.all_eq_true] using h
  simp [h1]

/-! ### Facts about the event-building loop -/

theorem buildDayEvents_get {start : Int} {clock : Nat → Int} {i : Nat}
    {days : List (Nat × List Char)} {evs : List CalendarEvent}
    (h : buildDayEvents start clock i days = some evs) :
    evs.length = days.length ∧
      ∀ j p, days[j]? = some p → evs[j]? = some (eventOfPair start clock (i + j) p) := by
  induction days generalizing i evs with
  | nil =>
    simp only [buildDayEvents, Option.some.injEq] at h
    subst h
    exact ⟨rfl, by intro j p hp; simp at hp⟩
  | cons q rest ih =>
    obtain ⟨n, content⟩ := q
    simp only [buildDayEvents] at h
    split at h
    · next hrange =>
      cases hb : buildDayEvents start clock (i + 1) rest with
      | none => rw [hb] at h; exact absurd h (by simp)
      | some evs' =>
        rw [hb] at h
        simp only [Option.some.injEq] at h
        subst h
        obtain ⟨hlen, hget⟩ := ih hb
        refine ⟨by simpa using hlen, ?_⟩
        intro j p hp
        match j with
        | 0 =>
          simp only [List.getElem?_cons_zero, Option.some.injEq] at hp
          subst hp
          simp [eventOfPair]
        | j + 1 =>
          simp only [List.getElem?_cons_succ] at hp ⊢
          have := hget j p hp
          have harith : i + 1 + j = i + (j + 1) := by omega
          rw [harith] at this
          exact this
    · exact absurd h (by simp)

theorem buildDayEvents_isSome {start : Int} {clock : Nat → Int} {i : Nat}
    {days : List (Nat × List Char)}
    (h : ∀ p ∈ days, minOrdinal ≤ start + (p.1 : Int) - 1 ∧
      start + (p.1 : Int) - 1 ≤ maxOrdinal) :
    ∃ evs, buildDayEvents start clock i days = some evs := by
  induction days generalizing i with
  | nil => exact ⟨[], rfl⟩
  | cons q rest ih =>
    obtain ⟨n, content⟩ := q
    obtain ⟨evs', hb⟩ := ih (fun p hp => h p (List.mem_cons_of_mem _ hp)) (i := i + 1)
    have hq : minOrdinal ≤ start + (n : Int) - 1 ∧ start + (n : Int) - 1 ≤ maxOrdinal :=
      h (n, content) (List.mem_cons_self _ _)
    refine ⟨{ summary := "Day " ++ toString n ++ " Itinerary",
              description := String.mk (pyStrip content),
              dtstart := start + (n : Int) - 1, dtend := start + (n : Int) - 1,
              dtstamp := clock i } :: evs', ?_⟩
    simp only [buildDayEvents, hb]
    rw [if_pos hq]

theorem buildDayEvents_dtend {start : Int} {clock : Nat → Int} {i : Nat}
    {days : List (Nat × List Char)} {evs : List CalendarEvent}
    (h : buildDayEvents start clock i days = some evs) :
    ∀ e ∈ evs, e.dtend = e.dtstart := by
  induction days generalizing i evs with
  | nil =>
    simp only [buildDayEvents, Option.some.injEq] at h
    subst h
    simp
  | cons q rest ih =>
    obtain ⟨n, content⟩ := q
    simp only [buildDayEvents] at h
    split at h
    · cases hb : buildDayEvents start clock (i + 1) rest with
      | none => rw [hb] at h; exact absurd h (by simp)
      | some evs' =>
        rw [hb] at h
        simp only [Option.some.injEq] at h
        subst h
        intro e he
        rcases List.mem_cons.mp he with rfl | he'
        · rfl
        · exact ih hb e he'
    · exact absurd h (by simp)

theorem buildDayEvents_eraseStamp {start : Int} {clock₁ clock₂ : Nat → Int}
    {i₁ i₂ : Nat} {days : List (Nat × List Char)} {evs₁ evs₂ : List CalendarEvent}
    (h₁ : buildDayEvents start clock₁ i₁ days = some evs₁)
    (h₂ : buildDayEvents start clock₂ i₂ days = some evs₂) :
    evs₁.map eraseStamp = evs₂.map eraseStamp := by
  obtain ⟨len₁, get₁⟩ := buildDayEvents_get h₁
  obtain ⟨len₂, get₂⟩ := buildDayEvents_get h₂
  apply List.ext_getElem?
  intro j
  cases hj : days[j]? with
  | some p =>
    have g₁ := get₁ j p hj
    have g₂ := get₂ j p hj
    simp only [List.getElem?_map, g₁, g₂, Option.map_some']
    rfl
  | none =>
    have hd : days.length ≤ j := by
      by_contra hlt
      push_neg at hlt
      rw [List.getElem?_eq_getElem hlt] at hj
      exact Option.noConfusion hj
    simp only [List.getElem?_map]
    rw [List.getElem?_eq_none (by omega), List.getElem?_eq_none (by omega)]

/-! ### Unfolding the two branches of the generator -/

theorem generate_eq_fallback {plan : String} {startOpt : Option Int}
    {today : Int} {clock : Nat → Int} (h : findall plan.data = []) :
    generate_ics_content plan startOpt today clock =
      some { prodid := "-//AI Travel Planner//github.com//", version := "2.0",
             events := [{ summary := "Travel Itinerary", description := plan,
                          dtstart := startOpt.getD today,
                          dtend := startOpt.getD today,
                          dtstamp := clock 0 }] } := by
  unfold generate_ics_content
  rw [h]

theorem generate_eq_dayloop {plan : String} {startOpt : Option Int}
    {today : Int} {clock : Nat → Int} (h : findall plan.data ≠ []) :
    generate_ics_content plan startOpt today clock =
      Option.map
        (fun evs => { prodid := "-//AI Travel Planner//github.com//",
                      version := "2.0", events := evs })
        (buildDayEvents (startOpt.getD today) clock 0 (findall plan.data)) := by
  obtain ⟨q, qs, hd⟩ := List.exists_cons_of_ne_nil h
  unfold generate_ics_content
  simp only [hd]
  cases buildDayEvents (startOpt.getD today) clock 0 (q :: qs) <;> rfl

/-! ### Claim theorems -/

/-- C1: if the itinerary text contains one or more day markers, the
generated calendar contains exactly one event per matched
(dayNumber, content) pair, in the order the markers appear in the text
(the event at index j corresponds to the pair at index j of the findall
result, which is in match order, not sorted by day number), each with
summary "Day n Itinerary" and startDate = TripStartDate + (n - 1) days. -/
theorem c1_one_event_per_marker_in_order (plan : String) (startOpt : Option Int)
    (today : Int) (clock : Nat → Int) (cal : Calendar)
    (hne : findall plan.data ≠ [])
    (hgen : generate_ics_content plan startOpt today clock = some cal) :
    cal.events.length = (findall plan.data).length ∧
    ∀ j p, (findall plan.data)[j]? = some p →
      cal.events[j]? = some
        ({ summary := "Day " ++ toString p.1 ++ " Itinerary",
           description := String.mk (pyStrip p.2),
           dtstart := startOpt.getD today + (p.1 : Int) - 1,
           dtend := startOpt.getD today + (p.1 : Int) - 1,
           dtstamp := clock j } : CalendarEvent) := by
  rw [generate_eq_dayloop hne] at hgen
  cases hb : buildDayEvents (startOpt.getD today) clock 0 (findall plan.data) with
  | none => rw [hb] at hgen; exact Option.noConfusion hgen
  | some evs =>
    rw [hb] at hgen
    simp only [Option.map_some', Option.some.injEq] at hgen
    obtain ⟨len, get⟩ := buildDayEvents_get hb
    subst hgen
    refine ⟨by simpa using len, ?_⟩
    intro j p hp
    have hj := get j p hp
    simpa [eventOfPair] using hj

/-- C1 witness: Scenario A of the spec, start date 2024-06-01
(ordinal 739038): two events, "Day 1 Itinerary" on 2024-06-01 and
"Day 2 Itinerary" on 2024-06-02. -/
theorem c1_witness :
    (Calendar.mk "-//AI Travel Planner//github.com//" "2.0"
        [CalendarEvent.mk "Day 1 Itinerary" "Arrive and check in." 739038 739038 0,
         CalendarEvent.mk "Day 2 Itinerary" "City tour." 739039 739039 1]).events.length
      = (findall "Day 1: Arrive and check in.\nDay 2: City tour.".data).length ∧
    ∀ (j : Nat) (p : Nat × List Char),
      (findall "Day 1: Arrive and check in.\nDay 2: City tour.".data)[j]? = some p →
      (Calendar.mk "-//AI Travel Planner//github.com//" "2.0"
        [CalendarEvent.mk "Day 1 Itinerary" "Arrive and check in." 739038 739038 0,
         CalendarEvent.mk "Day 2 Itinerary" "City tour." 739039 739039 1]).events[j]? = some
        ({ summary := "Day " ++ toString p.1 ++ " Itinerary",
           description := String.mk (pyStrip p.2),
           dtstart := (some (739038 : Int)).getD 0 + (p.1 : Int) - 1,
           dtend := (some (739038 : Int)).getD 0 + (p.1 : Int) - 1,
           dtstamp := (j : Int) } : CalendarEvent) :=
  c1_one_event_per_marker_in_order "Day 1: Arrive and check in.\nDay 2: City tour."
    (some 739038) 0 (fun i => (i : Int)) _ (by decide) (by decide)

/-- C2: if the itinerary text contains no day markers the calendar holds
exactly one event with summary "Travel Itinerary", description the entire
input text verbatim (untrimmed), and date equal to the start date; the
result is `some`, i.e. absence of markers is a handled fallback, never an
error. -/
theorem c2_fallback_single_event (plan : String) (startOpt : Option Int)
    (today : Int) (clock : Nat → Int)
    (h : findall plan.data = []) :
    generate_ics_content plan startOpt today clock =
      some { prodid := "-//AI Travel Planner//github.com//", version := "2.0",
             events := [{ summary := "Travel Itinerary", description := plan,
                          dtstart := startOpt.getD today,
                          dtend := startOpt.getD today,
                          dtstamp := clock 0 }] } :=
  generate_eq_fallback h

/-- C2 witness: Scenario B of the spec, "Just relax, no fixed plan." with
start 2024-06-01: one "Travel Itinerary" event dated 2024-06-01 carrying
the text verbatim. -/
theorem c2_witness :
    generate_ics_content "Just relax, no fixed plan." (some 739038) 0 (fun i => (i : Int)) =
      some { prodid := "-//AI Travel Planner//github.com//", version := "2.0",
             events := [{ summary := "Travel Itinerary",
                          description := "Just relax, no fixed plan.",
                          dtstart := (some (739038 : Int)).getD 0,
                          dtend := (some (739038 : Int)).getD 0,
                          dtstamp := ((0 : Nat) : Int) }] } :=
  c2_fallback_single_event "Just relax, no fixed plan." (some 739038) 0
    (fun i => (i : Int)) (by decide)

/-- C7: every event of every generated calendar, day-numbered or fallback,
has endDate equal to startDate (zero-duration all-day event). -/
theorem c7_dtend_eq_dtstart (plan : String) (startOpt : Option Int)
    (today : Int) (clock : Nat → Int) (cal : Calendar)
    (hgen : generate_ics_content plan startOpt today clock = some cal) :
    ∀ e ∈ cal.events, e.dtend = e.dtstart := by
  by_cases hne : findall plan.data = []
  · rw [generate_eq_fallback hne] at hgen
    simp only [Option.some.injEq] at hgen
    subst hgen
    intro e he
    simp only [List.mem_singleton] at he
    subst he
    rfl
  · rw [generate_eq_dayloop hne] at hgen
    cases hb : buildDayEvents (startOpt.getD today) clock 0 (findall plan.data) with
    | none => rw [hb] at hgen; exact Option.noConfusion hgen
    | some evs =>
      rw [hb] at hgen
      simp only [Option.map_some', Option.some.injEq] at hgen
      subst hgen
      intro e he
      exact buildDayEvents_dtend hb e (by simpa using he)

/-- C7 witness: instantiated at Scenario A and at its first event. -/
theorem c7_witness :
    (CalendarEvent.mk "Day 1 Itinerary" "Arrive and check in." 739038 739038 0).dtend
      = (CalendarEvent.mk "Day 1 Itinerary" "Arrive and check in." 739038 739038 0).dtstart :=
  c7_dtend_eq_dtstart "Day 1: Arrive and check in.\nDay 2: City tour."
    (some 739038) 0 (fun i => (i : Int))
    (Calendar.mk "-//AI Travel Planner//github.com//" "2.0"
      [CalendarEvent.mk "Day 1 Itinerary" "Arrive and check in." 739038 739038 0,
       CalendarEvent.mk "Day 2 Itinerary" "City tour." 739039 739039 1])
    (by decide)
    (CalendarEvent.mk "Day 1 Itinerary" "Arrive and check in." 739038 739038 0)
    (by decide)

/-- C4: every matched marker is accepted whatever its day number: the
event for pair j exists and its date is exactly start + (dayNumber - 1)
with no clamping and no error, so day number 0 gives a date strictly
before the start date and day number 1 gives exactly the start date.
(The regex `\d+` matches only unsigned digit runs, so a matched day number
is never negative; the claim's negative case is vacuously covered by the
unrestricted date arithmetic shown here.) -/
theorem c4_day_zero_before_start (plan : String) (startOpt : Option Int)
    (today : Int) (clock : Nat → Int) (cal : Calendar)
    (hgen : generate_ics_content plan startOpt today clock = some cal) :
    ∀ (j : Nat) (p : Nat × List Char), (findall plan.data)[j]? = some p →
      ∃ e : CalendarEvent, cal.events[j]? = some e ∧
        e.dtstart = startOpt.getD today + (p.1 : Int) - 1 ∧
        (p.1 = 0 → e.dtstart < startOpt.getD today) ∧
        (p.1 = 1 → e.dtstart = startOpt.getD today) := by
  intro j p hp
  have hne : findall plan.data ≠ [] := by
    intro h0
    rw [h0] at hp
    simp at hp
  rw [generate_eq_dayloop hne] at hgen
  cases hb : buildDayEvents (startOpt.getD today) clock 0 (findall plan.data) with
  | none => rw [hb] at hgen; exact Option.noConfusion hgen
  | some evs =>
    rw [hb] at hgen
    simp only [Option.map_some', Option.some.injEq] at hgen
    subst hgen
    obtain ⟨-, get⟩ := buildDayEvents_get hb
    refine ⟨eventOfPair (startOpt.getD today) clock (0 + j) p, get j p hp, rfl, ?_, ?_⟩
    · intro h0
      show startOpt.getD today + (p.1 : Int) - 1 < startOpt.getD today
      rw [h0]
      omega
    · intro h1
      show startOpt.getD today + (p.1 : Int) - 1 = startOpt.getD today
      rw [h1]
      omega

/-- C4 witness: "Day 0" and "Day 1" markers with start 2024-06-01: the
day-0 event exists and is dated 2024-05-31 (one day before the start), the
day-1 event is dated exactly 2024-06-01. -/
theorem c4_witness :
    (∃ e : CalendarEvent, (Calendar.mk "-//AI Travel Planner//github.com//" "2.0"
        [CalendarEvent.mk "Day 0 Itinerary" "before" 739037 739037 0,
         CalendarEvent.mk "Day 1 Itinerary" "kickoff" 739038 739038 1]).events[(0 : Nat)]?
          = some e ∧
        e.dtstart = (some (739038 : Int)).getD 0 + (((0, "before\n".data) : Nat × List Char).1 : Int) - 1 ∧
        (((0, "before\n".data) : Nat × List Char).1 = 0 →
          e.dtstart < (some (739038 : Int)).getD 0) ∧
        (((0, "before\n".data) : Nat × List Char).1 = 1 →
          e.dtstart = (some (739038 : Int)).getD 0)) ∧
    (∃ e : CalendarEvent, (Calendar.mk "-//AI Travel Planner//github.com//" "2.0"
        [CalendarEvent.mk "Day 0 Itinerary" "before" 739037 739037 0,
         CalendarEvent.mk "Day 1 Itinerary" "kickoff" 739038 739038 1]).events[(1 : Nat)]?
          = some e ∧
        e.dtstart = (some (739038 : Int)).getD 0 + (((1, "kickoff".data) : Nat × List Char).1 : Int) - 1 ∧
        (((1, "kickoff".data) : Nat × List Char).1 = 0 →
          e.dtstart < (some (739038 : Int)).getD 0) ∧
        (((1, "kickoff".data) : Nat × List Char).1 = 1 →
          e.dtstart = (some (739038 : Int)).getD 0)) :=
  ⟨c4_day_zero_before_start "Day 0: before\nDay 1: kickoff" (some 739038) 0
      (fun i => (i : Int)) _ (by decide) 0 (0, "before\n".data) (by decide),
   c4_day_zero_before_start "Day 0: before\nDay 1: kickoff" (some 739038) 0
      (fun i => (i : Int)) _ (by decide) 1 (1, "kickoff".data) (by decide)⟩

/-- C5: when the same day number is matched by several markers, each
occurrence gets its own event (one event per pair, so the event count
equals the pair count) and any two pairs with equal day numbers yield
events with the same date; nothing is merged or deduplicated. -/
theorem c5_duplicate_days_same_date (plan : String) (startOpt : Option Int)
    (today : Int) (clock : Nat → Int) (cal : Calendar)
    (hne : findall plan.data ≠ [])
    (hgen : generate_ics_content plan startOpt today clock = some cal) :
    cal.events.length = (findall plan.data).length ∧
    ∀ (i j : Nat) (p q : Nat × List Char), (findall plan.data)[i]? = some p →
      (findall plan.data)[j]? = some q → p.1 = q.1 →
      ∃ e f : CalendarEvent, cal.events[i]? = some e ∧ cal.events[j]? = some f ∧
        e.dtstart = f.dtstart := by
  rw [generate_eq_dayloop hne] at hgen
  cases hb : buildDayEvents (startOpt.getD today) clock 0 (findall plan.data) with
  | none => rw [hb] at hgen; exact Option.noConfusion hgen
  | some evs =>
    rw [hb] at hgen
    simp only [Option.map_some', Option.some.injEq] at hgen
    subst hgen
    obtain ⟨len, get⟩ := buildDayEvents_get hb
    refine ⟨by simpa using len, ?_⟩
    intro i j p q hp hq hpq
    refine ⟨eventOfPair (startOpt.getD today) clock (0 + i) p,
      eventOfPair (startOpt.getD today) clock (0 + j) q, get i p hp, get j q hq, ?_⟩
    show startOpt.getD today + (p.1 : Int) - 1 = startOpt.getD today + (q.1 : Int) - 1
    rw [hpq]

/-- C5 witness: Scenario C, "Day 1" appearing twice: two separate events,
both dated the start date. -/
theorem c5_witness :
    (Calendar.mk "-//AI Travel Planner//github.com//" "2.0"
        [CalendarEvent.mk "Day 1 Itinerary" "a" 739038 739038 0,
         CalendarEvent.mk "Day 1 Itinerary" "b" 739038 739038 1]).events.length
      = (findall "Day 1: a\nDay 1: b".data).length ∧
    (∃ e f : CalendarEvent, (Calendar.mk "-//AI Travel Planner//github.com//" "2.0"
        [CalendarEvent.mk "Day 1 Itinerary" "a" 739038 739038 0,
         CalendarEvent.mk "Day 1 Itinerary" "b" 739038 739038 1]).events[(0 : Nat)]? = some e ∧
      (Calendar.mk "-//AI Travel Planner//github.com//" "2.0"
        [CalendarEvent.mk "Day 1 Itinerary" "a" 739038 739038 0,
         CalendarEvent.mk "Day 1 Itinerary" "b" 739038 739038 1]).events[(1 : Nat)]? = some f ∧
      e.dtstart = f.dtstart) :=
  ⟨(c5_duplicate_days_same_date "Day 1: a\nDay 1: b" (some 739038) 0
      (fun i => (i : Int)) _ (by decide) (by decide)).1,
   (c5_duplicate_days_same_date "Day 1: a\nDay 1: b" (some 739038) 0
      (fun i => (i : Int)) _ (by decide) (by decide)).2 0 1
      (1, "a\n".data) (1, "b".data) (by decide) (by decide) rfl⟩

/-- C6: each day event's description is the matched segment's content with
leading and trailing whitespace trimmed: the description is an exact
contiguous infix of the segment (so interior content, blank lines
included, is preserved verbatim) obtained by removing an all-whitespace
head and an all-whitespace tail, and a whitespace-only segment yields an
empty description. -/
theorem c6_description_is_trimmed_segment (plan : String) (startOpt : Option Int)
    (today : Int) (clock : Nat → Int) (cal : Calendar)
    (hgen : generate_ics_content plan startOpt today clock = some cal) :
    ∀ (j : Nat) (p : Nat × List Char), (findall plan.data)[j]? = some p →
      ∃ e : CalendarEvent, cal.events[j]? = some e ∧
        e.description = String.mk (pyStrip p.2) ∧
        (∃ pre suf : List Char, pre.all isSpaceChar = true ∧ suf.all isSpaceChar = true ∧
          p.2 = pre ++ pyStrip p.2 ++ suf) ∧
        (p.2.all isSpaceChar = true → e.description = "") := by
  intro j p hp
  have hne : findall plan.data ≠ [] := by
    intro h0
    rw [h0] at hp
    simp at hp
  rw [generate_eq_dayloop hne] at hgen
  cases hb : buildDayEvents (startOpt.getD today) clock 0 (findall plan.data) with
  | none => rw [hb] at hgen; exact Option.noConfusion hgen
  | some evs =>
    rw [hb] at hgen
    simp only [Option.map_some', Option.some.injEq] at hgen
    subst hgen
    obtain ⟨-, get⟩ := buildDayEvents_get hb
    refine ⟨eventOfPair (startOpt.getD today) clock (0 + j) p, get j p hp, rfl,
      pyStrip_decomposition p.2, ?_⟩
    intro hall
    show String.mk (pyStrip p.2) = ""
    rw [pyStrip_of_all_space hall]

/-- C6 witness: the day-1 segment "x \n" (trailing space and newline) is
trimmed to description "x"; the day-2 segment of a second input, left
whitespace-only by the separator run, gives description "". -/
theorem c6_witness :
    (∃ e : CalendarEvent, (Calendar.mk "-//AI Travel Planner//github.com//" "2.0"
        [CalendarEvent.mk "Day 1 Itinerary" "x" 739038 739038 0,
         CalendarEvent.mk "Day 2 Itinerary" "y" 739039 739039 1]).events[(0 : Nat)]?
          = some e ∧
        e.description = String.mk (pyStrip "x \n".data) ∧
        (∃ pre suf : List Char, pre.all isSpaceChar = true ∧ suf.all isSpaceChar = true ∧
          "x \n".data = pre ++ pyStrip "x \n".data ++ suf) ∧
        ("x \n".data.all isSpaceChar = true → e.description = "")) ∧
    (∃ e : CalendarEvent, (Calendar.mk "-//AI Travel Planner//github.com//" "2.0"
        [CalendarEvent.mk "Day 1 Itinerary" "a" 739038 739038 0,
         CalendarEvent.mk "Day 2 Itinerary" "" 739039 739039 1]).events[(1 : Nat)]?
          = some e ∧
        e.description = String.mk (pyStrip ([] : List Char)) ∧
        (∃ pre suf : List Char, pre.all isSpaceChar = true ∧ suf.all isSpaceChar = true ∧
          ([] : List Char) = pre ++ pyStrip ([] : List Char) ++ suf) ∧
        (([] : List Char).all isSpaceChar = true → e.description = "")) :=
  ⟨c6_description_is_trimmed_segment "Day 1: x \nDay 2: y" (some 739038) 0
      (fun i => (i : Int)) _ (by decide) 0 (1, "x \n".data) (by decide),
   c6_description_is_trimmed_segment "Day 1: a\nDay 2:   \t " (some 739038) 0
      (fun i => (i : Int)) _ (by decide) 1 (2, ([] : List Char)) (by decide)⟩

/-- C9: the generated document is a pure function of the itinerary text
and start date except for the per-event generatedAt stamp: two runs with
the same inputs but different clocks agree on the document identifiers and
on every event field other than dtstamp, eventwise in order. -/
theorem c9_same_except_dtstamp (plan : String) (startOpt : Option Int)
    (today : Int) (clock₁ clock₂ : Nat → Int) (cal₁ cal₂ : Calendar)
    (h₁ : generate_ics_content plan startOpt today clock₁ = some cal₁)
    (h₂ : generate_ics_content plan startOpt today clock₂ = some cal₂) :
    cal₁.prodid = cal₂.prodid ∧ cal₁.version = cal₂.version ∧
    cal₁.events.map eraseStamp = cal₂.events.map eraseStamp := by
  by_cases hne : findall plan.data = []
  · rw [generate_eq_fallback hne] at h₁ h₂
    simp only [Option.some.injEq] at h₁ h₂
    subst h₁
    subst h₂
    exact ⟨rfl, rfl, rfl⟩
  · rw [generate_eq_dayloop hne] at h₁ h₂
    cases hb₁ : buildDayEvents (startOpt.getD today) clock₁ 0 (findall plan.data) with
    | none => rw [hb₁] at h₁; exact Option.noConfusion h₁
    | some evs₁ =>
      cases hb₂ : buildDayEvents (startOpt.getD today) clock₂ 0 (findall plan.data) with
      | none => rw [hb₂] at h₂; exact Option.noConfusion h₂
      | some evs₂ =>
        rw [hb₁] at h₁
        rw [hb₂] at h₂
        simp only [Option.map_some', Option.some.injEq] at h₁ h₂
        subst h₁
        subst h₂
        exact ⟨rfl, rfl, buildDayEvents_eraseStamp hb₁ hb₂⟩

/-- C9 witness: Scenario A run with two different clocks: identical
documents after erasing dtstamp. -/
theorem c9_witness :
    (Calendar.mk "-//AI Travel Planner//github.com//" "2.0"
        [CalendarEvent.mk "Day 1 Itinerary" "Arrive and check in." 739038 739038 0,
         CalendarEvent.mk "Day 2 Itinerary" "City tour." 739039 739039 1]).prodid
      = (Calendar.mk "-//AI Travel Planner//github.com//" "2.0"
        [CalendarEvent.mk "Day 1 Itinerary" "Arrive and check in." 739038 739038 42,
         CalendarEvent.mk "Day 2 Itinerary" "City tour." 739039 739039 42]).prodid ∧
    (Calendar.mk "-//AI Travel Planner//github.com//" "2.0"
        [CalendarEvent.mk "Day 1 Itinerary" "Arrive and check in." 739038 739038 0,
         CalendarEvent.mk "Day 2 Itinerary" "City tour." 739039 739039 1]).version
      = (Calendar.mk "-//AI Travel Planner//github.com//" "2.0"
        [CalendarEvent.mk "Day 1 Itinerary" "Arrive and check in." 739038 739038 42,
         CalendarEvent.mk "Day 2 Itinerary" "City tour." 739039 739039 42]).version ∧
    (Calendar.mk "-//AI Travel Planner//github.com//" "2.0"
        [CalendarEvent.mk "Day 1 Itinerary" "Arrive and check in." 739038 739038 0,
         CalendarEvent.mk "Day 2 Itinerary" "City tour." 739039 739039 1]).events.map eraseStamp
      = (Calendar.mk "-//AI Travel Planner//github.com//" "2.0"
        [CalendarEvent.mk "Day 1 Itinerary" "Arrive and check in." 739038 739038 42,
         CalendarEvent.mk "Day 2 Itinerary" "City tour." 739039 739039 42]).events.map eraseStamp :=
  c9_same_except_dtstamp "Day 1: Arrive and check in.\nDay 2: City tour."
    (some 739038) 0 (fun i => (i : Int)) (fun _ => (42 : Int)) _ _
    (by decide) (by decide)

/-- C8 counterexample: `generate_ics_content` is not total.  On the input
"Day 9999999: x" with the valid start date 2024-06-01 (ordinal 739038) the
computed event date 739038 + 9999999 - 1 = 10739036 lies outside Python's
representable date range, so `start_date + timedelta(days=day_num - 1)` at
line 38 of `src/app.py` raises OverflowError ("date value out of range")
and no document is returned (modelled as `none`). -/
theorem c8_counterexample :
    generate_ics_content "Day 9999999: x" (some 739038) 0 (fun i => (i : Int)) = none := by
  decide

/-- C8 amended: `generate_ics_content` runs to completion and returns a
document with at least one event for every input string whose matched day
numbers keep start + (dayNumber - 1) inside the representable date range
0001-01-01 .. 9999-12-31 (in particular for every marker-free, malformed
or empty input, where the fallback applies); inputs with day numbers
outside that range raise OverflowError instead.  A missing start date
defaults to the current date at call time. -/
theorem c8_amended_total_within_range (plan : String) (startOpt : Option Int)
    (today : Int) (clock : Nat → Int)
    (h : ∀ p ∈ findall plan.data,
      minOrdinal ≤ startOpt.getD today + (p.1 : Int) - 1 ∧
        startOpt.getD today + (p.1 : Int) - 1 ≤ maxOrdinal) :
    (∃ cal : Calendar, generate_ics_content plan startOpt today clock = some cal ∧
      cal.events ≠ []) ∧
    generate_ics_content plan none today clock =
      generate_ics_content plan (some today) today clock := by
  constructor
  · by_cases hne : findall plan.data = []
    · refine ⟨_, generate_eq_fallback hne, ?_⟩
      simp
    · obtain ⟨evs, hb⟩ := @buildDayEvents_isSome _ clock 0 _ h
      refine ⟨{ prodid := "-//AI Travel Planner//github.com//", version := "2.0",
                events := evs }, ?_, ?_⟩
      · rw [generate_eq_dayloop hne, hb]
        rfl
      · obtain ⟨len, -⟩ := buildDayEvents_get hb
        intro h0
        simp only at h0
        apply hne
        apply List.length_eq_zero.mp
        rw [← len, h0]
        rfl
  · rfl

/-- C8 witness: a well-formed two-day itinerary with start 2024-06-01
satisfies the range hypothesis, and the conclusion holds for it. -/
theorem c8_witness :
    (∀ p ∈ findall "Day 1: a\nDay 2: b".data,
      minOrdinal ≤ (some (739038 : Int)).getD 0 + (p.1 : Int) - 1 ∧
        (some (739038 : Int)).getD 0 + (p.1 : Int) - 1 ≤ maxOrdinal) ∧
    ((∃ cal : Calendar,
        generate_ics_content "Day 1: a\nDay 2: b" (some 739038) 0 (fun i => (i : Int))
          = some cal ∧ cal.events ≠ []) ∧
      generate_ics_content "Day 1: a\nDay 2: b" none 0 (fun i => (i : Int)) =
        generate_ics_content "Day 1: a\nDay 2: b" (some 0) 0 (fun i => (i : Int))) :=
  ⟨by decide,
   c8_amended_total_within_range "Day 1: a\nDay 2: b" (some 739038) 0
     (fun i => (i : Int)) (by decide)⟩

/-- Helper for C10: a nonempty findall result is produced entirely by the
suffix starting at the first position where a match succeeds; all earlier
positions fail to match. -/
theorem findall_first_match (l : List Char) (h : findall l ≠ []) :
    ∃ k, (∀ j, j < k → matchDayAt (l.drop j) = none) ∧
      matchDayAt (l.drop k) ≠ none ∧ findall l = findall (l.drop k) := by
  induction l with
  | nil => exact absurd rfl h
  | cons c t ih =>
    cases hm : matchDayAt (c :: t) with
    | some v =>
      refine ⟨0, by omega, ?_, rfl⟩
      rw [List.drop_zero, hm]
      exact Option.noConfusion
    | none =>
      have hft : findall t ≠ [] := by rwa [findall_cons_none hm] at h
      obtain ⟨k, h1, h2, h3⟩ := ih hft
      refine ⟨k + 1, ?_, ?_, ?_⟩
      · intro j hj
        match j with
        | 0 => exact hm
        | j + 1 => exact h1 j (by omega)
      · simpa using h2
      · rw [findall_cons_none hm, h3]
        rfl

/-- C10: when the text contains at least one day marker, everything before
the first matching position is silently discarded: the whole generated
document (every event, every field) is identical to the one generated from
the input with that prefix removed, so the prefix text appears nowhere in
the output. -/
theorem c10_leading_text_discarded (plan : String) (startOpt : Option Int)
    (today : Int) (clock : Nat → Int)
    (hne : findall plan.data ≠ []) :
    ∃ k, (∀ j, j < k → matchDayAt (plan.data.drop j) = none) ∧
      matchDayAt (plan.data.drop k) ≠ none ∧
      generate_ics_content plan startOpt today clock =
        generate_ics_content (String.mk (plan.data.drop k)) startOpt today clock := by
  obtain ⟨k, h1, h2, h3⟩ := findall_first_match plan.data hne
  refine ⟨k, h1, h2, ?_⟩
  have hdata : (String.mk (plan.data.drop k)).data = plan.data.drop k := rfl
  have hsuf : findall (String.mk (plan.data.drop k)).data ≠ [] := by
    rw [hdata, ← h3]
    exact hne
  rw [generate_eq_dayloop hne, generate_eq_dayloop hsuf, hdata, ← h3]

/-- C10 witness: "intro text Day 1: x" produces the same document as the
input with the leading "intro text " removed. -/
theorem c10_witness :
    ∃ k, (∀ j, j < k → matchDayAt ("intro text Day 1: x".data.drop j) = none) ∧
      matchDayAt ("intro text Day 1: x".data.drop k) ≠ none ∧
      generate_ics_content "intro text Day 1: x" (some 739038) 0 (fun i => (i : Int)) =
        generate_ics_content (String.mk ("intro text Day 1: x".data.drop k))
          (some 739038) 0 (fun i => (i : Int)) :=
  c10_leading_text_discarded "intro text Day 1: x" (some 739038) 0
    (fun i => (i : Int)) (by decide)

/-- C3 counterexample: the content group does NOT run up to the next
(complete) marker.  On "Day 1: a Day 9x Day 2: b" the incomplete marker
"Day 9x" (digits not followed by a colon or whitespace) is not a marker,
so under the claim's reading (formalized by `claimedFindall`) day 1's
content is "a Day 9x " and runs up to "Day 2:"; but the code's lookahead
`(?=Day \d+|$)` already stops at "Day 9", so the code yields content "a "
for day 1 and the text "Day 9x " is dropped from the output entirely. -/
theorem c3_counterexample :
    findall "Day 1: a Day 9x Day 2: b".data
        ≠ claimedFindall "Day 1: a Day 9x Day 2: b".data ∧
    findall "Day 1: a Day 9x Day 2: b".data
        = [(1, "a ".data), (2, "b".data)] ∧
    claimedFindall "Day 1: a Day 9x Day 2: b".data
        = [(1, "a Day 9x ".data), (2, "b".data)] := by
  refine ⟨by decide, by decide, by decide⟩

/-- C3 amended: a match of `day_pattern` is the case-sensitive literal
"Day " followed by a maximal nonempty digit run (whose integer value is the
day number) and a nonempty run of colons/whitespace, and its content group
extends exactly to the EARLIEST later position where either "Day " followed
by a digit occurs — even when that occurrence is not a complete marker,
i.e. lacks the required colon or whitespace after the digits — or the text
ends (a single final newline counting as the end); the stopping occurrence
is never consumed by the match. -/
theorem c3_amended_content_stops_at_day_digit (l : List Char) (n : Nat)
    (content rest : List Char)
    (h : matchDayAt l = some (n, content, rest)) :
    ∃ ds sep : List Char,
      ds ≠ [] ∧ ds.all isDigitChar = true ∧
      sep ≠ [] ∧ sep.all isSepChar = true ∧
      n = digitsVal ds ∧
      l = 'D' :: 'a' :: 'y' :: ' ' :: (ds ++ (sep ++ (content ++ rest))) ∧
      StopSpec rest ∧
      (∀ k, k < content.length → ¬ StopSpec (content.drop k ++ rest)) := by
  obtain ⟨r, rfl, h1, h2, h3, h4, h5⟩ := matchDayAt_eq_some h
  have hr2 : (lazyContent ((r.dropWhile isDigitChar).dropWhile isSepChar)).1 ++
      (lazyContent ((r.dropWhile isDigitChar).dropWhile isSepChar)).2 =
      (r.dropWhile isDigitChar).dropWhile isSepChar := lazyContent_append _
  refine ⟨r.takeWhile isDigitChar, (r.dropWhile isDigitChar).takeWhile isSepChar,
    List.isEmpty_eq_false.mp h1, ?_, List.isEmpty_eq_false.mp h2, ?_, h3, ?_, ?_, ?_⟩
  · simp only [List.all_eq_true]
    exact fun x hx => List.mem_takeWhile_imp hx
  · simp only [List.all_eq_true]
    exact fun x hx => List.mem_takeWhile_imp hx
  · subst h4
    subst h5
    simp only [List.cons.injEq, true_and]
    rw [hr2, List.takeWhile_append_dropWhile, List.takeWhile_append_dropWhile]
  · rw [stopSpec_iff, h5]
    exact lazyContent_stop _
  · intro k hk
    rw [stopSpec_iff]
    have hdrop : (content ++ rest).drop k = content.drop k ++ rest :=
      List.drop_append_of_le_length (Nat.le_of_lt hk)
    have he : regexStop (((r.dropWhile isDigitChar).dropWhile isSepChar).drop k) = false := by
      apply lazyContent_earliest
      rw [← h4]
      exact hk
    rw [← hr2, ← h4, ← h5, hdrop] at he
    simp [he]

/-- C3 amended witness: the single match in "Day 12: go home" decomposes as
digit run "12", separator ": ", content "go home", empty rest. -/
theorem c3_witness :
    ∃ ds sep : List Char,
      ds ≠ [] ∧ ds.all isDigitChar = true ∧
      sep ≠ [] ∧ sep.all isSepChar = true ∧
      12 = digitsVal ds ∧
      "Day 12: go home".data
        = 'D' :: 'a' :: 'y' :: ' ' :: (ds ++ (sep ++ ("go home".data ++ []))) ∧
      StopSpec [] ∧
      (∀ k, k < "go home".data.length → ¬ StopSpec ("go home".data.drop k ++ [])) :=
  c3_amended_content_stops_at_day_digit "Day 12: go home".data 12
    "go home".data [] (by decide)

end TravelAI
